import Mathlib

/-!
Verification of the fetch/cache/retry/error-classification layer of
`openqa_review` (file `openqa_review/browser.py`) via a shallow embedding.

Python strings are modelled as Lean `String` (a list of characters); the
stdlib helpers `urllib.parse.quote` / `unquote` are modelled byte-wise,
which is exact for ASCII inputs (the domain all round-trip statements are
restricted to).  `json.loads` / `json.dumps` are stdlib collaborators, not
repository code: they are passed in as an explicit `Jsonlib` record so that
statements hold for every decoder/encoder, and witnesses instantiate them
concretely.  Disk and network are explicit oracles in an `Env` record and
every operation returns a `Trace` counting the disk reads, disk writes and
network calls it performed.
-/

/-! ## Codec: `url_to_filename` / `filename_to_url` -/

/-- Characters never percent-encoded by `urllib.parse.quote`
(letters, digits, `_`, `.`, `-`, `~`). -/
def alwaysSafe (c : Char) : Bool :=
  (('A' ≤ c && c ≤ 'Z') || ('a' ≤ c && c ≤ 'z') || ('0' ≤ c && c ≤ '9')
    || c = '_' || c = '.' || c = '-' || c = '~')

/-- Characters kept verbatim by `quote` with its default `safe='/'`. -/
def quoteSafe (c : Char) : Bool := alwaysSafe c || c = '/'

/-- Upper-case hexadecimal digit, as emitted by `urllib.parse.quote`. -/
def hexUpper (n : Nat) : Char :=
  if n < 10 then Char.ofNat (48 + n) else Char.ofNat (55 + n)

/-- Percent-encoding of one character (one byte; exact for ASCII). -/
def quoteChar (c : Char) : List Char :=
  if quoteSafe c then [c] else ['%', hexUpper (c.toNat / 16), hexUpper (c.toNat % 16)]

/-- Model of `urllib.parse.quote` (default `safe='/'`) on character lists. -/
def quoteL (s : List Char) : List Char := s.flatMap quoteChar

/-- Value of a hexadecimal digit character, if any (`unquote` accepts both cases). -/
def hexVal (c : Char) : Option Nat :=
  if '0' ≤ c && c ≤ '9' then some (c.toNat - 48)
  else if 'A' ≤ c && c ≤ 'F' then some (c.toNat - 55)
  else if 'a' ≤ c && c ≤ 'f' then some (c.toNat - 87)
  else none

/-- Fuel-driven core of the `unquote` model: a `%` followed by two hex digits
decodes to that byte, an invalid `%` sequence is kept literally (byte-wise
model, exact for ASCII content).  Each step consumes at least one character
and one unit of fuel, so fuel equal to the length of the input suffices. -/
def unquoteFuel : Nat → List Char → List Char
  | _, [] => []
  | 0, l => l
  | fuel + 1, c :: rest =>
    if c = '%' then
      match rest with
      | h1 :: h2 :: rest2 =>
        match hexVal h1, hexVal h2 with
        | some a, some b => Char.ofNat (16 * a + b) :: unquoteFuel fuel rest2
        | _, _ => c :: unquoteFuel fuel rest
      | _ => c :: unquoteFuel fuel rest
    else c :: unquoteFuel fuel rest

/-- Model of `urllib.parse.unquote` on character lists. -/
def unquoteL (l : List Char) : List Char := unquoteFuel l.length l

/-- Python `str.replace` with a single-character pattern and replacement is a
per-character map (single-character occurrences cannot overlap). -/
def replaceChar (a b : Char) (l : List Char) : List Char :=
  l.map fun c => if c = a then b else c

/-- Model of `url_to_filename`: `quote(url).replace("/", ":")`. -/
def url_to_filename (url : String) : String :=
  ⟨replaceChar '/' ':' (quoteL url.data)⟩

/-- Model of `filename_to_url`: `unquote(name.replace(":", "/"))`. -/
def filename_to_url (name : String) : String :=
  ⟨unquoteL (replaceChar ':' '/' name.data)⟩

/-! ### Codec round-trip lemmas -/

theorem hexVal_hexUpper : ∀ n, n < 16 → hexVal (hexUpper n) = some n := by decide

theorem hexUpper_ne_colon : ∀ n, n < 16 → hexUpper n ≠ ':' := by decide

theorem quoteSafe_ne_percent {c : Char} (h : quoteSafe c = true) : c ≠ '%' := by
  intro e; subst e; simp [quoteSafe, alwaysSafe] at h

theorem quoteSafe_ne_colon {c : Char} (h : quoteSafe c = true) : c ≠ ':' := by
  intro e; subst e; simp [quoteSafe, alwaysSafe] at h

theorem unquoteFuel_nil (fuel : Nat) : unquoteFuel fuel [] = [] := by
  cases fuel <;> rfl

theorem unquoteFuel_safe (fuel : Nat) (c : Char) (l : List Char) (hc : ¬c = '%') :
    unquoteFuel (fuel + 1) (c :: l) = c :: unquoteFuel fuel l := by
  simp [unquoteFuel, hc]

theorem unquoteFuel_unsafe (fuel : Nat) (c : Char) (l : List Char) (hc : c.toNat < 128) :
    unquoteFuel (fuel + 1) ('%' :: hexUpper (c.toNat / 16) :: hexUpper (c.toNat % 16) :: l)
      = c :: unquoteFuel fuel l := by
  have h1 := hexVal_hexUpper (c.toNat / 16) (by omega)
  have h2 := hexVal_hexUpper (c.toNat % 16) (Nat.mod_lt _ (by norm_num))
  simp [unquoteFuel, h1, h2, Nat.div_add_mod, Char.ofNat_toNat]

theorem quoteL_cons (c : Char) (rest : List Char) :
    quoteL (c :: rest) = quoteChar c ++ quoteL rest := by
  simp [quoteL]

theorem unquoteFuel_quoteL :
    ∀ (s : List Char) (fuel : Nat), s.length ≤ fuel → (∀ c ∈ s, c.toNat < 128) →
      unquoteFuel fuel (quoteL s) = s := by
  intro s
  induction s with
  | nil =>
    intro fuel _ _
    rw [show quoteL [] = [] from rfl]
    exact unquoteFuel_nil fuel
  | cons c rest ih =>
    intro fuel hlen hascii
    obtain ⟨f, rfl⟩ : ∃ f, fuel = f + 1 := ⟨fuel - 1, by simp at hlen; omega⟩
    have hc : c.toNat < 128 := hascii c (List.mem_cons_self c rest)
    have hrest : ∀ d ∈ rest, d.toNat < 128 := fun d hd => hascii d (List.mem_cons_of_mem c hd)
    have hlen' : rest.length ≤ f := by simp at hlen; omega
    by_cases hq : quoteSafe c = true
    · rw [quoteL_cons, show quoteChar c = [c] from by simp [quoteChar, hq]]
      rw [List.singleton_append, unquoteFuel_safe f c _ (quoteSafe_ne_percent hq),
        ih f hlen' hrest]
    · rw [quoteL_cons, show quoteChar c
          = ['%', hexUpper (c.toNat / 16), hexUpper (c.toNat % 16)] from by
            simp [quoteChar, hq]]
      rw [List.cons_append, List.cons_append, List.cons_append, List.nil_append,
        unquoteFuel_unsafe f c _ hc, ih f hlen' hrest]

theorem length_le_length_quoteL (s : List Char) : s.length ≤ (quoteL s).length := by
  induction s with
  | nil => simp [quoteL]
  | cons c rest ih =>
    rw [quoteL_cons, List.length_append]
    have h1 : 1 ≤ (quoteChar c).length := by
      unfold quoteChar; split <;> simp
    simp only [List.length_cons]
    omega

theorem unquoteL_quoteL (s : List Char) (h : ∀ c ∈ s, c.toNat < 128) :
    unquoteL (quoteL s) = s :=
  unquoteFuel_quoteL s (quoteL s).length (length_le_length_quoteL s) h

theorem quoteChar_ne_colon (c : Char) (hc : c.toNat < 128) :
    ∀ d ∈ quoteChar c, d ≠ ':' := by
  intro d hd
  by_cases h : quoteSafe c = true
  · rw [show quoteChar c = [c] from by simp [quoteChar, h]] at hd
    simp only [List.mem_singleton] at hd
    subst hd; exact quoteSafe_ne_colon h
  · rw [show quoteChar c
        = ['%', hexUpper (c.toNat / 16), hexUpper (c.toNat % 16)] from by
          simp [quoteChar, h]] at hd
    simp only [List.mem_cons, List.mem_singleton, List.not_mem_nil, or_false] at hd
    rcases hd with h1 | h2 | h3
    · subst h1; decide
    · subst h2; exact hexUpper_ne_colon _ (by omega)
    · subst h3; exact hexUpper_ne_colon _ (Nat.mod_lt _ (by norm_num))

theorem replaceChar_round (l : List Char) (h : ∀ c ∈ l, c ≠ ':') :
    replaceChar ':' '/' (replaceChar '/' ':' l) = l := by
  induction l with
  | nil => rfl
  | cons c rest ih =>
    have hc : c ≠ ':' := h c (List.mem_cons_self c rest)
    have hrest := ih fun d hd => h d (List.mem_cons_of_mem c hd)
    by_cases hsl : c = '/'
    · subst hsl; simp [replaceChar] at hrest ⊢; exact hrest
    · simp [replaceChar, hsl, hc] at hrest ⊢; exact hrest

/-- C1: for every URL made of ASCII characters, decoding the encoded
filename yields the original URL exactly:
`filename_to_url (url_to_filename url) = url`, i.e. the filename encoding is
losslessly reversible (and hence injective) over the ASCII URL domain. -/
theorem c1_codec_roundtrip (url : String) (h : ∀ c ∈ url.data, c.toNat < 128) :
    filename_to_url (url_to_filename url) = url := by
  apply String.ext
  show unquoteL (replaceChar ':' '/' (replaceChar '/' ':' (quoteL url.data))) = url.data
  have hnc : ∀ c ∈ quoteL url.data, c ≠ ':' := by
    intro c hc
    simp only [quoteL, List.mem_flatMap] at hc
    obtain ⟨a, ha, hmem⟩ := hc
    exact quoteChar_ne_colon a (h a ha) c hmem
  rw [replaceChar_round _ hnc, unquoteL_quoteL _ h]

/-- Witness for C1 at the doctest URL from the source. -/
theorem c1_codec_roundtrip_witness :
    (∀ c ∈ ("http://openqa.opensuse.org/tests/foo/3").data, c.toNat < 128)
    ∧ filename_to_url (url_to_filename "http://openqa.opensuse.org/tests/foo/3")
        = "http://openqa.opensuse.org/tests/foo/3" :=
  ⟨by decide, c1_codec_roundtrip _ (by decide)⟩

/-- Sanity anchor: the embedding reproduces the doctest of `url_to_filename`. -/
theorem url_to_filename_doctest :
    url_to_filename "http://openqa.opensuse.org/tests/foo/3"
      = "http%3A::openqa.opensuse.org:tests:foo:3" := by decide

/-! ## Data model: JSON values, error taxonomy, environment -/

/-- JSON values (numbers restricted to integers, which covers every value the
claims exercise). -/
inductive JVal where
  | null
  | bool (b : Bool)
  | num (n : Int)
  | str (s : String)
  | arr (xs : List JVal)
  | obj (kvs : List (String × JVal))

/-- The stdlib `json` collaborator: `loads` returns the decoded value or the
exception text of a `JSONDecodeError`; `dumps` serialises.  Statements are
proved for every such record, witnesses instantiate it concretely. -/
structure Jsonlib where
  loads : String → Except String JVal
  dumps : JVal → String

/-- Exception taxonomy of `browser.py`.  `cacheNotFound` models
`CacheNotFoundError` (a subclass of `DownloadError`); `ioError` a re-raised
`IOError` with its errno; `jsonDecodeError` a bare `json.JSONDecodeError`;
`httpError` an uncaught `requests.exceptions.HTTPError`; `sslError` an
uncaught `requests.exceptions.SSLError`; `bugNotFound` models
`BugNotFoundError` (a subclass of `BugzillaError`), both carrying the url and
the `code`/`message` values of the reported error object; `keyError` a
`KeyError` on a malformed error object. -/
inductive Err where
  | downloadError (msg : String)
  | cacheNotFound (msg : String)
  | sslError (msg : String)
  | ioError (errno : Nat)
  | jsonDecodeError (msg : String)
  | httpError (msg : String)
  | keyError (key : String)
  | bugzillaError (url : String) (code : JVal) (msg : JVal)
  | bugNotFound (url : String) (code : JVal) (msg : JVal)

/-- Membership in the `DownloadError` exception class (covers the
`CacheNotFoundError` subclass). -/
def Err.isDownloadError : Err → Bool
  | .downloadError _ => true
  | .cacheNotFound _ => true
  | _ => false

/-- Membership in the `IOError` class as re-raised by the load path. -/
def Err.isIOError : Err → Bool
  | .ioError _ => true
  | _ => false

/-- Membership in the `BugzillaError` exception class (covers the
`BugNotFoundError` subclass). -/
def Err.isBugzillaError : Err → Bool
  | .bugzillaError _ _ _ => true
  | .bugNotFound _ _ _ => true
  | _ => false

/-- Membership in the `BugNotFoundError` subclass. -/
def Err.isBugNotFound : Err → Bool
  | .bugNotFound _ _ _ => true
  | _ => false

/-- Values returned by `get_page`: raw text, or a decoded JSON structure when
`as_json` was requested. -/
inductive Content where
  | text (s : String)
  | json (v : JVal)

/-- Outcome of opening and reading a cache fixture file (`codecs.open` plus
`read`): the file content, or an `IOError` with the given errno
(`errno.ENOENT = 2` means the file does not exist). -/
inductive DiskResult where
  | found (content : String)
  | err (errno : Nat)

/-- Outcome of the `http.get` call inside `_get` (the urllib3 retry policy is
internal to that call): an `SSLError`, a `ConnectionError` after exhausted
retries, a `ChunkedEncodingError`, or an HTTP response with status and body. -/
inductive GetResult where
  | sslError (msg : String)
  | connError (msg : String)
  | chunkError (msg : String)
  | response (status : Nat) (body : String)

/-- Outcome of one `requests.post` call in `json_rpc_post`. -/
inductive PostResult where
  | connError (msg : String)
  | response (status : Nat) (body : String)

/-- Whether a post attempt failed with a `ConnectionError`. -/
def PostResult.isConn : PostResult → Bool
  | .connError _ => true
  | _ => false

/-- Certificate metadata extracted by the TLS diagnostic probe
(issuer organization, SHA-1 and SHA-256 fingerprints). -/
structure CertInfo where
  issuer : String
  sha1 : String
  sha256 : String

/-- The external world: the on-disk cache, the network (GET results per URL,
POST results per attempt index and request body), and the optional OpenSSL
introspection capability (`opensslAvailable` is whether `import OpenSSL`
succeeds; `cert` is the certificate probe per server name). -/
structure Env where
  disk : String → DiskResult
  get : String → GetResult
  post : Nat → String → PostResult
  opensslAvailable : Bool
  cert : String → CertInfo

/-- Counts of the externally visible effects of one operation. -/
structure Trace where
  diskReads : Nat
  diskWrites : Nat
  netGets : Nat
  netPosts : Nat

/-- Increment the disk-write count (the save-mode persist step). -/
def Trace.addWrite : Trace → Trace
  | ⟨r, w, g, p⟩ => ⟨r, w + 1, g, p⟩

/-- The `Browser` instance state: the mode flags and directories resolved in
`__init__`, the configured root URL, and the in-memory cache (an association
list keyed by the original URL string, most recent entry first). -/
structure Browser where
  save : Bool
  load : Bool
  load_dir : String
  save_dir : String
  dry_run : Bool
  root_url : String
  cache : List (String × String)

/-- Store `raw` under `url` in the in-memory cache (`self.cache[url] = raw`). -/
def Browser.setCache (b : Browser) (url raw : String) : Browser :=
  ⟨b.save, b.load, b.load_dir, b.save_dir, b.dry_run, b.root_url, (url, raw) :: b.cache⟩

/-! ## String helpers (kernel-computable models of stdlib operations) -/

/-- Model of Python `s.startswith(pre)`. -/
def startsWith_model (s pre : String) : Bool := pre.data.isPrefixOf s.data

/-- Model of Python string comparison `a < b` (lexicographic by code point),
used by `sortedcontainers.SortedDict` for its key order. -/
def charListLt : List Char → List Char → Bool
  | [], [] => false
  | [], _ :: _ => true
  | _ :: _, [] => false
  | a :: as, b :: bs => if a < b then true else if b < a then false else charListLt as bs

/-- String-level wrapper of `charListLt`. -/
def strLt (a b : String) : Bool := charListLt a.data b.data

/-- Fuel-driven core of Python `str.replace`: replace non-overlapping
occurrences of `pat` left to right (no-op for an empty pattern, which the
source never uses).  Each step consumes at least one character, so fuel equal
to the input length suffices. -/
def replaceFuel (pat rep : List Char) : Nat → List Char → List Char
  | _, [] => []
  | 0, l => l
  | fuel + 1, c :: rest =>
    if pat.isPrefixOf (c :: rest) && !pat.isEmpty then
      rep ++ replaceFuel pat rep fuel (List.drop (pat.length - 1) rest)
    else
      c :: replaceFuel pat rep fuel rest

/-- Model of Python `s.replace(pat, rep)`. -/
def replaceAll (s pat rep : String) : String :=
  ⟨replaceFuel pat.data rep.data s.data.length s.data⟩

/-- Model of `os.path.join(dir, file)` for a relative `file`. -/
def osPathJoin (dir file : String) : String := dir ++ "/" ++ file

/-- Suffix of a character list after the first `"://"`, if any. -/
def afterSchemeSep : List Char → Option (List Char)
  | ':' :: '/' :: '/' :: rest => some rest
  | _ :: rest => afterSchemeSep rest
  | [] => none

/-- Model of `urlparse(url).netloc` for absolute URLs: the host part between
`"://"` and the next `/`. -/
def netlocOf (url : String) : String :=
  match afterSchemeSep url.data with
  | some rest => ⟨rest.takeWhile fun c => c ≠ '/'⟩
  | none => ""

/-- Scheme plus netloc prefix of an absolute URL (`"http://host"`), the part
kept by `urljoin` when joining a root-relative path. -/
def schemeNetloc (root : String) : String :=
  match afterSchemeSep root.data with
  | some rest =>
    ⟨(root.data.takeWhile fun c => c ≠ ':') ++ ':' :: '/' :: '/'
      :: rest.takeWhile fun c => c ≠ '/'⟩
  | none => ""

/-- Model of `urljoin(root, url)` for a root-relative `url` (starting with
`/`): the root's scheme and netloc followed by the path. -/
def urljoinRoot (root url : String) : String := schemeNetloc root ++ url

/-! ## `Browser` operations -/

/-- The bare `json.loads(raw) if as_json else raw` expression used on the
in-memory-hit and load paths of `get_page` (lines 104 and 118): a decode
failure there surfaces as a plain `json.JSONDecodeError`, not wrapped. -/
def decodeMaybe (J : Jsonlib) (raw : String) (as_json : Bool) : Except Err Content :=
  if as_json then
    match J.loads raw with
    | .ok v => .ok (.json v)
    | .error e => .error (.jsonDecodeError e)
  else .ok (.text raw)

/-- The `raw = json.dumps(content) if as_json else content` expression of
`get_page` (the flag is equivalent to matching on the content's shape). -/
def rawOf (J : Jsonlib) : Content → String
  | .json v => J.dumps v
  | .text s => s

/-- Message of `CacheNotFoundError` in the load path. -/
def cacheMissMsg (url filename : String) : String :=
  "Request to " ++ url ++ " was not successful, file " ++ filename ++ " not found"

/-- Message wrapped around a JSON decode failure by `_decode_content`. -/
def decodeFailMsg (url e raw : String) : String :=
  "Unable to decode JSON for " ++ url ++ ": " ++ e ++ " (Content was: \"" ++ raw ++ "\")"

/-- Message of the `DownloadError` raised on a trusted-certificate failure,
embedding the issuer organization and both fingerprints. -/
def certMsg (server_name : String) (info : CertInfo) : String :=
  "Certificate for \"" ++ server_name ++ "\" from \"" ++ info.issuer
    ++ "\" (sha1: " ++ info.sha1 ++ ", sha256 " ++ info.sha256
    ++ ") is not trusted by the system"

/-- Abstraction of `str(e)` for a `requests.exceptions.HTTPError`. -/
def httpErrorStr (status : Nat) (url : String) : String :=
  toString status ++ " Error for url: " ++ url

/-- Message of the `DownloadError` raised after exhausted connection retries
in `_get` (the urllib3 budget is `Retry(total=7, ...)`). -/
def connFailMsg (url e : String) : String :=
  "Request to " ++ url ++ " was not successful after 7 retries: " ++ e

/-- `_decode_content`: parse the body as JSON when requested and wrap a parse
failure into a `DownloadError` embedding the offending raw body. -/
def Browser._decode_content (J : Jsonlib) (url raw : String) (as_json : Bool) :
    Except Err Content :=
  if as_json then
    match J.loads raw with
    | .ok v => .ok (.json v)
    | .error e => .error (.downloadError (decodeFailMsg url e raw))
  else .ok (.text raw)

/-- `_get`: one live `http.get` (retry policy internal to the call), the TLS
diagnostic branch, connection/chunked-encoding failure classification,
`raise_for_status`, and body decoding via `_decode_content`. -/
def Browser._get (J : Jsonlib) (env : Env) (url : String) (as_json : Bool) :
    Except Err Content :=
  match env.get url with
  | .sslError e =>
    if env.opensslAvailable then
      .error (.downloadError (certMsg (netlocOf url) (env.cert (netlocOf url))))
    else
      .error (.sslError e)
  | .connError e => .error (.downloadError (connFailMsg url e))
  | .chunkError e => .error (.downloadError ("Request to " ++ url ++ " was not successful: " ++ e))
  | .response status body =>
    if 399 < status && status < 600 then
      .error (.downloadError ("Request to " ++ url ++ " failed: " ++ httpErrorStr status url))
    else
      Browser._decode_content J url body as_json

/-- Tail of a successful `get_page`: `raw = dumps(content) if as_json else
content`, the save-mode disk write, and the unconditional in-memory
memoization `self.cache[url] = raw`. -/
def Browser.finish (J : Jsonlib) (b : Browser) (url : String) (content : Content)
    (t : Trace) : Except Err Content × Browser × Trace :=
  let raw := rawOf J content
  let b2 := b.setCache url raw
  if b.save then (.ok content, b2, t.addWrite) else (.ok content, b2, t)

/-- The `absolute_url` resolution of `get_page` and `json_rpc_post`:
root-relative URLs are joined against the configured root URL. -/
def Browser.absoluteUrl (b : Browser) (url : String) : String :=
  if startsWith_model url "/" then urljoinRoot b.root_url url else url

/-- The in-memory-cache-miss part of `get_page`: the load-mode disk path (with
`CacheNotFoundError` on `ENOENT` and re-raise otherwise) or the live fetch via
`_get`, followed by `finish`. -/
def Browser.fetch_fresh (J : Jsonlib) (b : Browser) (env : Env) (url : String)
    (as_json : Bool) (cache : Bool) : Except Err Content × Browser × Trace :=
  let filename := url_to_filename url
  if b.load && cache then
    match env.disk (osPathJoin b.load_dir filename) with
    | .err e =>
      if e = 2 then
        (.error (.cacheNotFound (cacheMissMsg url filename)), b, ⟨1, 0, 0, 0⟩)
      else
        (.error (.ioError e), b, ⟨1, 0, 0, 0⟩)
    | .found raw =>
      match decodeMaybe J raw as_json with
      | .error er => (.error er, b, ⟨1, 0, 0, 0⟩)
      | .ok content => Browser.finish J b url content ⟨1, 0, 0, 0⟩
  else
    match Browser._get J env (b.absoluteUrl url) as_json with
    | .error er => (.error er, b, ⟨0, 0, 1, 0⟩)
    | .ok content => Browser.finish J b url content ⟨0, 0, 1, 0⟩

/-- `get_page`: in-memory cache hit first (when `cache` is set), else the
miss path.  Returns the content or the raised exception, the updated instance,
and the effect trace. -/
def Browser.get_page (J : Jsonlib) (b : Browser) (env : Env) (url : String)
    (as_json : Bool) (cache : Bool) : Except Err Content × Browser × Trace :=
  match cache, b.cache.lookup url with
  | true, some raw => (decodeMaybe J raw as_json, b, ⟨0, 0, 0, 0⟩)
  | _, _ => Browser.fetch_fresh J b env url as_json cache

/-- `get_json`: `get_page` with JSON decoding requested. -/
def Browser.get_json (J : Jsonlib) (b : Browser) (env : Env) (url : String)
    (cache : Bool) : Except Err Content × Browser × Trace :=
  Browser.get_page J b env url true cache

/-! ## RPC builders -/

/-- Dictionary lookup on a JSON object (`response["error"]` etc.); `none` for
a missing key or a non-object. -/
def jget (v : JVal) (k : String) : Option JVal :=
  match v with
  | .obj kvs => kvs.lookup k
  | _ => none

/-- Python `value is None` for a decoded JSON value. -/
def JVal.isNull : JVal → Bool
  | .null => true
  | _ => false

/-- Python `error["code"] == 101` on a JSON value. -/
def jeq101 : JVal → Bool
  | .num n => n == 101
  | _ => false

/-- Insertion into a `SortedDict` association list: replace an equal key,
otherwise keep keys sorted by Python string comparison. -/
def sdInsert (k v : String) : List (String × String) → List (String × String)
  | [] => [(k, v)]
  | (k2, v2) :: rest =>
    if k = k2 then (k, v) :: rest
    else if strLt k k2 then (k, v) :: (k2, v2) :: rest
    else (k2, v2) :: sdInsert k v rest

/-- Model of `SortedDict(...)` built from the given insertion order. -/
def sortedPairs (l : List (String × String)) : List (String × String) :=
  l.foldl (fun d kv => sdInsert kv.1 kv.2 d) []

/-- One character under `urllib.parse.quote_plus` with `safe=''` (the quoting
`urlencode` applies inside `requests.Request(...).prepare()`). -/
def quotePlusChar (c : Char) : List Char :=
  if c = ' ' then ['+']
  else if alwaysSafe c then [c]
  else ['%', hexUpper (c.toNat / 16), hexUpper (c.toNat % 16)]

/-- Model of `urllib.parse.quote_plus` (exact for ASCII). -/
def quote_plus (s : String) : String := ⟨s.data.flatMap quotePlusChar⟩

/-- Model of `urlencode`: `key=value` pairs joined with `&`, each side
percent-quoted. -/
def urlencodePairs : List (String × String) → String
  | [] => ""
  | [kv] => quote_plus kv.1 ++ "=" ++ quote_plus kv.2
  | kv :: rest => quote_plus kv.1 ++ "=" ++ quote_plus kv.2 ++ "&" ++ urlencodePairs rest

/-- Model of `requests.Request("GET", url, params=...).prepare().url` for a
URL without a pre-existing query string. -/
def buildGetUrl (url : String) (ps : List (String × String)) : String :=
  url ++ "?" ++ urlencodePairs ps

/-- The GET URL built by `json_rpc_get`: root-relative URLs are joined against
`"http://dummy/"`, and the query is the `SortedDict` of `method` and `params`
(the latter serialised as a JSON array holding the single params object). -/
def rpcGetUrl (J : Jsonlib) (url method : String) (params : JVal) : String :=
  let absolute_url := if startsWith_model url "/" then "http://dummy" ++ url else url
  buildGetUrl absolute_url
    (sortedPairs [("method", method), ("params", J.dumps (.arr [params]))])

/-- `json_rpc_get`: build the query URL, fetch it as JSON through the cache
path (with `"http://dummy"` stripped again), then inspect the decoded
response's `error` field: absent or `None` returns the response; code 101
raises `BugNotFoundError`; any other error raises `BugzillaError`. -/
def Browser.json_rpc_get (J : Jsonlib) (b : Browser) (env : Env)
    (url method : String) (params : JVal) (cache : Bool) :
    Except Err JVal × Browser × Trace :=
  let get_url := rpcGetUrl J url method params
  match Browser.get_json J b env (replaceAll get_url "http://dummy" "") cache with
  | (.error e, b1, t) => (.error e, b1, t)
  | (.ok c, b1, t) =>
    let response : JVal := match c with | .json v => v | .text s => .str s
    match jget response "error" with
    | none => (.ok response, b1, t)
    | some errv =>
      if errv.isNull then (.ok response, b1, t)
      else
        match jget errv "code" with
        | none => (.error (.keyError "code"), b1, t)
        | some code =>
          if jeq101 code then
            match jget errv "message" with
            | none => (.error (.keyError "message"), b1, t)
            | some m => (.error (.bugNotFound get_url code m), b1, t)
          else
            match jget errv "message" with
            | none => (.error (.keyError "message"), b1, t)
            | some m => (.error (.bugzillaError get_url code m), b1, t)

/-- The JSON body `json.dumps({"method": method, "params": [params]})` sent by
`json_rpc_post`. -/
def jsonBody (J : Jsonlib) (method : String) (params : JVal) : String :=
  J.dumps (.obj [("method", .str method), ("params", .arr [params])])

/-- The `for i in range(1, 7)` retry loop of `json_rpc_post`: at attempt `i`, a
`ConnectionError` is caught and the loop continues; a response with an error
status makes `raise_for_status` raise an (uncaught) `HTTPError`; any other
response breaks the loop.  Falling off the loop yields `none` (the `else`
clause).  The second component counts the POST calls performed. -/
def postLoop (env : Env) (absolute_url dataStr : String) :
    Nat → Nat → Except Err (Option (Nat × String)) × Nat
  | 0, _ => (.ok none, 0)
  | fuel + 1, i =>
    match env.post i dataStr with
    | .connError _ =>
      let r := postLoop env absolute_url dataStr fuel (i + 1)
      (r.1, r.2 + 1)
    | .response status text =>
      if 399 < status && status < 600 then
        (.error (.httpError (httpErrorStr status absolute_url)), 1)
      else
        (.ok (some (status, text)), 1)

/-- `json_rpc_post`: in dry-run mode, no network call and an empty dict
result; otherwise up to 6 POST attempts retrying on connection errors only,
`None` after exhausting them, and on success the decoded JSON body or `None`
for an empty body. -/
def Browser.json_rpc_post (J : Jsonlib) (b : Browser) (env : Env)
    (url method : String) (params : JVal) : Except Err (Option JVal) × Trace :=
  if b.dry_run then (.ok (some (.obj [])), ⟨0, 0, 0, 0⟩)
  else
    match postLoop env (b.absoluteUrl url) (jsonBody J method params) 6 1 with
    | (.error er, n) => (.error er, ⟨0, 0, 0, n⟩)
    | (.ok none, n) => (.ok none, ⟨0, 0, 0, n⟩)
    | (.ok (some st), n) =>
      if st.2 = "" then (.ok none, ⟨0, 0, 0, n⟩)
      else
        match J.loads st.2 with
        | .ok v => (.ok (some v), ⟨0, 0, 0, n⟩)
        | .error er => (.error (.jsonDecodeError er), ⟨0, 0, 0, n⟩)

/-! ## Theorems about the cache / load / fetch pipeline -/

theorem lookup_setCache (b : Browser) (url raw : String) :
    (b.setCache url raw).cache.lookup url = some raw := by
  simp [Browser.setCache, List.lookup]

theorem decodeMaybe_false (J : Jsonlib) (raw : String) :
    decodeMaybe J raw false = .ok (.text raw) := rfl

theorem finish_eq (J : Jsonlib) (b : Browser) (url : String) (content : Content)
    (t : Trace) :
    ∃ t2, Browser.finish J b url content t
        = (.ok content, b.setCache url (rawOf J content), t2)
      ∧ t2.diskReads = t.diskReads ∧ t2.netGets = t.netGets := by
  unfold Browser.finish
  by_cases hs : b.save = true
  · exact ⟨t.addWrite, by simp [hs], by cases t; rfl, by cases t; rfl⟩
  · exact ⟨t, by simp [hs], rfl, rfl⟩

theorem get_page_hit (J : Jsonlib) (b : Browser) (env : Env) (url raw : String)
    (aj : Bool) (h : b.cache.lookup url = some raw) :
    Browser.get_page J b env url aj true = (decodeMaybe J raw aj, b, ⟨0, 0, 0, 0⟩) := by
  simp [Browser.get_page, h]

theorem get_page_miss (J : Jsonlib) (b : Browser) (env : Env) (url : String)
    (aj cf : Bool) (h : b.cache.lookup url = none) :
    Browser.get_page J b env url aj cf = Browser.fetch_fresh J b env url aj cf := by
  cases cf <;> simp [Browser.get_page, h]

theorem get_false_text (J : Jsonlib) (env : Env) (u : String) (c : Content)
    (h : Browser._get J env u false = .ok c) : ∃ s, c = .text s := by
  unfold Browser._get at h
  split at h
  · split at h <;> simp_all
  · simp_all
  · simp_all
  · split at h
    · simp_all
    · unfold Browser._decode_content at h
      simp at h
      exact ⟨_, h.symm⟩

theorem get_page_success_cache (J : Jsonlib) (b : Browser) (env : Env) (url : String)
    (aj cf : Bool) (c : Content) (b1 : Browser) (t1 : Trace)
    (h : Browser.get_page J b env url aj cf = (.ok c, b1, t1)) :
    ∃ s, b1.cache.lookup url = some s ∧ (aj = false → c = .text s) := by
  unfold Browser.get_page at h
  split at h
  · next raw heq =>
    simp only [Prod.mk.injEq] at h
    obtain ⟨hdec, hb, -⟩ := h
    refine ⟨raw, by rw [← hb]; exact heq, fun haj => ?_⟩
    subst haj
    rw [decodeMaybe_false] at hdec
    exact (Except.ok.inj hdec).symm
  · unfold Browser.fetch_fresh at h
    dsimp only at h
    split at h
    · split at h
      · split at h
        · simp at h
        · simp at h
      · split at h
        · simp at h
        · rename_i content heq
          obtain ⟨t2, hf, -, -⟩ := finish_eq J b url content ⟨1, 0, 0, 0⟩
          rw [hf] at h
          simp only [Prod.mk.injEq] at h
          obtain ⟨hc, hb, -⟩ := h
          have hc' : content = c := Except.ok.inj hc
          subst hc'
          refine ⟨rawOf J content, by rw [← hb]; exact lookup_setCache b url _, fun haj => ?_⟩
          subst haj
          rw [decodeMaybe_false] at heq
          have := Except.ok.inj heq
          subst this
          rfl
    · generalize Browser.absoluteUrl b url = au at h
      split at h
      · simp at h
      · rename_i content heq
        obtain ⟨t2, hf, -, -⟩ := finish_eq J b url content ⟨0, 0, 1, 0⟩
        rw [hf] at h
        simp only [Prod.mk.injEq] at h
        obtain ⟨hc, hb, -⟩ := h
        have hc' : content = c := Except.ok.inj hc
        subst hc'
        refine ⟨rawOf J content, by rw [← hb]; exact lookup_setCache b url _, fun haj => ?_⟩
        subst haj
        obtain ⟨s, hs⟩ := get_false_text J env au content heq
        subst hs
        rfl

theorem fetch_fresh_trace (J : Jsonlib) (b : Browser) (env : Env) (url : String)
    (aj cf : Bool) :
    (Browser.fetch_fresh J b env url aj cf).2.2.diskReads
      + (Browser.fetch_fresh J b env url aj cf).2.2.netGets = 1 := by
  unfold Browser.fetch_fresh
  dsimp only
  split
  · split
    · split
      · rfl
      · rfl
    · split
      · rfl
      · rename_i content heq
        obtain ⟨t2, hf, hr, hg⟩ := finish_eq J b url content ⟨1, 0, 0, 0⟩
        rw [hf]
        show t2.diskReads + t2.netGets = 1
        rw [hr, hg]
        rfl
  · generalize Browser.absoluteUrl b url = au
    split
    · rfl
    · rename_i content heq
      obtain ⟨t2, hf, hr, hg⟩ := finish_eq J b url content ⟨0, 0, 1, 0⟩
      rw [hf]
      show t2.diskReads + t2.netGets = 1
      rw [hr, hg]
      rfl

theorem get_page_trace_le (J : Jsonlib) (b : Browser) (env : Env) (url : String)
    (aj cf : Bool) :
    (Browser.get_page J b env url aj cf).2.2.diskReads
      + (Browser.get_page J b env url aj cf).2.2.netGets ≤ 1 := by
  unfold Browser.get_page
  split
  · simp
  · rw [fetch_fresh_trace]

/-! ## Witness fixtures: concrete JSON libraries, browsers and environments -/

/-- Concrete decoder/encoder for witnesses: decoding always succeeds. -/
def Jtext : Jsonlib := ⟨fun s => .ok (.str s), fun _ => "D"⟩

/-- Concrete decoder for witnesses: decoding always fails (malformed JSON). -/
def Jbad : Jsonlib := ⟨fun _ => .error "Expecting value: line 1 column 1 (char 0)", fun _ => "D"⟩

/-- A fresh browser with all modes off. -/
def b0 : Browser := ⟨false, false, ".", ".", false, "http://root.example", []⟩

/-- A fresh browser in load mode. -/
def bLoad : Browser := ⟨false, true, "cachedir", ".", false, "http://root.example", []⟩

/-- Environment whose GET requests succeed with body `"hello"`. -/
def envLive : Env :=
  ⟨fun _ => .found "fixture", fun _ => .response 200 "hello",
    fun _ _ => .response 200 "", false, fun _ => ⟨"Org", "AA", "BB"⟩⟩

/-- Environment whose disk reads fail with `ENOENT`. -/
def envNoFile : Env :=
  ⟨fun _ => .err 2, fun _ => .response 200 "hello",
    fun _ _ => .response 200 "", false, fun _ => ⟨"Org", "AA", "BB"⟩⟩

/-- Environment whose disk reads fail with `EACCES` (errno 13). -/
def envPerm : Env :=
  ⟨fun _ => .err 13, fun _ => .response 200 "hello",
    fun _ _ => .response 200 "", false, fun _ => ⟨"Org", "AA", "BB"⟩⟩

/-- Environment whose disk reads find a (possibly malformed) fixture. -/
def envFix : Env :=
  ⟨fun _ => .found "notjson", fun _ => .response 200 "hello",
    fun _ _ => .response 200 "", false, fun _ => ⟨"Org", "AA", "BB"⟩⟩

/-! ## Claim theorems on the cache pipeline -/

/-- C2: after a first successful `get_page` call for a URL with caching
enabled, that call performed at most one underlying retrieval (disk read plus
network fetch is at most one), and a second call for the same URL on the
resulting instance with caching enabled performs no disk or network access at
all (the in-memory hit takes precedence, whatever the load mode) and — for raw
text — returns the memoized value. -/
theorem c2_memoized_second_call (J : Jsonlib) (b : Browser) (env : Env)
    (url : String) (aj : Bool) (c : Content) (b1 : Browser) (t1 : Trace)
    (h1 : Browser.get_page J b env url aj true = (.ok c, b1, t1)) :
    t1.diskReads + t1.netGets ≤ 1
    ∧ (Browser.get_page J b1 env url aj true).2.2 = ⟨0, 0, 0, 0⟩
    ∧ (aj = false → (Browser.get_page J b1 env url aj true).1 = .ok c) := by
  obtain ⟨s, hs, hcs⟩ := get_page_success_cache J b env url aj true c b1 t1 h1
  have hb1 := get_page_hit J b1 env url s aj hs
  refine ⟨?_, by rw [hb1], fun haj => ?_⟩
  · have hle := get_page_trace_le J b env url aj true
    rw [h1] at hle
    exact hle
  · subst haj
    rw [hb1]
    show decodeMaybe J s false = .ok c
    rw [decodeMaybe_false, hcs rfl]

/-- Witness for C2: a live fetch followed by a purely in-memory second call. -/
theorem c2_memoized_second_call_witness :
    Browser.get_page Jtext b0 envLive "http://x/y" false true
      = (.ok (.text "hello"), b0.setCache "http://x/y" "hello", ⟨0, 0, 1, 0⟩)
    ∧ (Browser.get_page Jtext (b0.setCache "http://x/y" "hello") envLive
        "http://x/y" false true).1 = .ok (.text "hello") :=
  ⟨rfl, (c2_memoized_second_call Jtext b0 envLive "http://x/y" false
      (.text "hello") (b0.setCache "http://x/y" "hello") ⟨0, 0, 1, 0⟩ rfl).2.2 rfl⟩

/-- C5: every successful `get_page` call — whatever its `cache` flag — leaves
the raw content memoized in the in-memory cache under the original URL, so a
later call for the same URL with caching enabled performs no disk or network
access and — for raw text — returns the memoized value. -/
theorem c5_memoize_regardless_of_cache_flag (J : Jsonlib) (b : Browser) (env : Env)
    (url : String) (aj cf : Bool) (c : Content) (b1 : Browser) (t1 : Trace)
    (h1 : Browser.get_page J b env url aj cf = (.ok c, b1, t1)) :
    (∃ s, b1.cache.lookup url = some s)
    ∧ (Browser.get_page J b1 env url aj true).2.2 = ⟨0, 0, 0, 0⟩
    ∧ (aj = false → (Browser.get_page J b1 env url aj true).1 = .ok c) := by
  obtain ⟨s, hs, hcs⟩ := get_page_success_cache J b env url aj cf c b1 t1 h1
  have hb1 := get_page_hit J b1 env url s aj hs
  refine ⟨⟨s, hs⟩, by rw [hb1], fun haj => ?_⟩
  subst haj
  rw [hb1]
  show decodeMaybe J s false = .ok c
  rw [decodeMaybe_false, hcs rfl]

/-- Witness for C5: a first call with `cache=False` on a load-mode browser
(which therefore fetches live, bypassing even the broken disk), after which a
cached call returns the memoized content. -/
theorem c5_memoize_regardless_of_cache_flag_witness :
    Browser.get_page Jtext bLoad envNoFile "http://x/y" false false
      = (.ok (.text "hello"), bLoad.setCache "http://x/y" "hello", ⟨0, 0, 1, 0⟩)
    ∧ (Browser.get_page Jtext (bLoad.setCache "http://x/y" "hello") envNoFile
        "http://x/y" false true).1 = .ok (.text "hello") :=
  ⟨rfl, (c5_memoize_regardless_of_cache_flag Jtext bLoad envNoFile "http://x/y" false false
      (.text "hello") (bLoad.setCache "http://x/y" "hello") ⟨0, 0, 1, 0⟩ rfl).2.2 rfl⟩

/-- C3: in load mode with caching applying (and no in-memory entry), a missing
fixture file (`ENOENT`) raises `CacheNotFoundError` — which is a
`DownloadError` and not an `IOError` — while a disk failure with any other
errno propagates unmodified as that `IOError`. -/
theorem c3_cache_not_found (J : Jsonlib) (b : Browser) (env : Env) (url : String)
    (aj : Bool) (hload : b.load = true) (hmem : b.cache.lookup url = none) :
    (env.disk (osPathJoin b.load_dir (url_to_filename url)) = .err 2 →
      (Browser.get_page J b env url aj true).1
        = .error (.cacheNotFound (cacheMissMsg url (url_to_filename url)))
      ∧ Err.isDownloadError (.cacheNotFound (cacheMissMsg url (url_to_filename url))) = true
      ∧ Err.isIOError (.cacheNotFound (cacheMissMsg url (url_to_filename url))) = false)
    ∧ (∀ n, n ≠ 2 → env.disk (osPathJoin b.load_dir (url_to_filename url)) = .err n →
      (Browser.get_page J b env url aj true).1 = .error (.ioError n)) := by
  constructor
  · intro hdisk
    refine ⟨?_, rfl, rfl⟩
    rw [get_page_miss J b env url aj true hmem]
    unfold Browser.fetch_fresh
    simp [hload, hdisk]
  · intro n hn hdisk
    rw [get_page_miss J b env url aj true hmem]
    unfold Browser.fetch_fresh
    simp [hload, hdisk, hn]

/-- Witness for C3: both errno branches at a concrete URL. -/
theorem c3_cache_not_found_witness :
    (Browser.get_page Jtext bLoad envNoFile "http://x/y" false true).1
      = .error (.cacheNotFound (cacheMissMsg "http://x/y" (url_to_filename "http://x/y")))
    ∧ (Browser.get_page Jtext bLoad envPerm "http://x/y" false true).1
      = .error (.ioError 13) :=
  ⟨((c3_cache_not_found Jtext bLoad envNoFile "http://x/y" false rfl rfl).1 rfl).1,
    (c3_cache_not_found Jtext bLoad envPerm "http://x/y" false rfl rfl).2 13 (by decide) rfl⟩

/-- C10: in load mode with JSON decoding requested, a fixture whose content
fails to decode makes `get_page` raise the bare `json.JSONDecodeError` (line
118 does not wrap it), which is outside the `DownloadError` taxonomy — whereas
the live-fetch path's `_decode_content` wraps the same decode failure into a
`DownloadError`. -/
theorem c10_load_mode_json_error (J : Jsonlib) (b : Browser) (env : Env)
    (url raw e : String) (hload : b.load = true) (hmem : b.cache.lookup url = none)
    (hdisk : env.disk (osPathJoin b.load_dir (url_to_filename url)) = .found raw)
    (hbad : J.loads raw = .error e) :
    (Browser.get_page J b env url true true).1 = .error (.jsonDecodeError e)
    ∧ Err.isDownloadError (.jsonDecodeError e) = false
    ∧ Browser._decode_content J url raw true = .error (.downloadError (decodeFailMsg url e raw))
    ∧ Err.isDownloadError (.downloadError (decodeFailMsg url e raw)) = true := by
  refine ⟨?_, rfl, ?_, rfl⟩
  · rw [get_page_miss J b env url true true hmem]
    unfold Browser.fetch_fresh
    simp [hload, hdisk, decodeMaybe, hbad]
  · unfold Browser._decode_content
    simp [hbad]

/-- Witness for C10: a malformed fixture under load mode. -/
theorem c10_load_mode_json_error_witness :
    (Browser.get_page Jbad bLoad envFix "http://x/y" true true).1
      = .error (.jsonDecodeError "Expecting value: line 1 column 1 (char 0)") :=
  (c10_load_mode_json_error Jbad bLoad envFix "http://x/y" "notjson"
    "Expecting value: line 1 column 1 (char 0)" rfl rfl rfl rfl).1

/-! ## Claim theorems on the RPC POST path -/

/-- A dry-run browser for witnesses. -/
def bDry : Browser := ⟨false, false, ".", ".", true, "http://root.example", []⟩

/-- Environment whose POST requests always fail with a connection error. -/
def envConn : Env :=
  ⟨fun _ => .err 2, fun _ => .response 200 "hello",
    fun _ _ => .connError "refused", false, fun _ => ⟨"Org", "AA", "BB"⟩⟩

/-- Environment whose POST requests succeed with an empty body. -/
def envPostOk : Env :=
  ⟨fun _ => .err 2, fun _ => .response 200 "hello",
    fun _ _ => .response 200 "", false, fun _ => ⟨"Org", "AA", "BB"⟩⟩

/-- C6: with dry-run mode active, `json_rpc_post` performs zero network calls
and returns an empty dict, for every method and params value. -/
theorem c6_dry_run_post (J : Jsonlib) (b : Browser) (env : Env) (url method : String)
    (params : JVal) (hdry : b.dry_run = true) :
    Browser.json_rpc_post J b env url method params = (.ok (some (.obj [])), ⟨0, 0, 0, 0⟩) := by
  unfold Browser.json_rpc_post
  simp [hdry]

/-- Witness for C6. -/
theorem c6_dry_run_post_witness :
    bDry.dry_run = true
    ∧ Browser.json_rpc_post Jtext bDry envConn "/jsonrpc.cgi" "Bug.update" (.num 7)
        = (.ok (some (.obj [])), ⟨0, 0, 0, 0⟩) :=
  ⟨rfl, c6_dry_run_post Jtext bDry envConn "/jsonrpc.cgi" "Bug.update" (.num 7) rfl⟩

theorem postLoop_exhaust (env : Env) (a d : String) :
    ∀ (fuel i : Nat), (∀ j, i ≤ j → j < i + fuel → (env.post j d).isConn = true) →
      postLoop env a d fuel i = (.ok none, fuel) := by
  intro fuel
  induction fuel with
  | zero => intro i _; rfl
  | succ f ih =>
    intro i hconn
    cases hpost : env.post i d with
    | connError m =>
      simp only [postLoop, hpost]
      rw [ih (i + 1) fun j h1 h2 => hconn j (by omega) (by omega)]
    | response s t =>
      exfalso
      have hc := hconn i (le_refl i) (by omega)
      rw [hpost] at hc
      simp [PostResult.isConn] at hc

theorem postLoop_reaches (env : Env) (a d : String) :
    ∀ (fuel i k s : Nat) (t : String), i ≤ k → k < i + fuel →
      (∀ j, i ≤ j → j < k → (env.post j d).isConn = true) →
      env.post k d = .response s t →
      postLoop env a d fuel i
        = (if 399 < s && s < 600 then (.error (.httpError (httpErrorStr s a)), k + 1 - i)
           else (.ok (some (s, t)), k + 1 - i)) := by
  intro fuel
  induction fuel with
  | zero => intro i k s t h1 h2 _ _; omega
  | succ f ih =>
    intro i k s t hik hlt hconn hresp
    by_cases hk : i = k
    · subst hk
      simp only [postLoop, hresp]
      rw [show i + 1 - i = 1 from by omega]
    · have hc := hconn i (le_refl i) (by omega)
      cases hpost : env.post i d with
      | response s2 t2 =>
        exfalso; rw [hpost] at hc; simp [PostResult.isConn] at hc
      | connError m =>
        simp only [postLoop, hpost]
        rw [ih (i + 1) k s t (by omega) (by omega)
          (fun j ha hb => hconn j (by omega) hb) hresp]
        by_cases hC : (399 < s && s < 600) = true
        · simp only [if_pos hC]
          rw [show k + 1 - (i + 1) + 1 = k + 1 - i from by omega]
        · simp only [if_neg hC]
          rw [show k + 1 - (i + 1) + 1 = k + 1 - i from by omega]

/-- C7: when dry-run is off, `json_rpc_post` makes up to 6 POST attempts,
retrying only on connection errors: six consecutive connection errors yield
`None` (no exception) after exactly 6 POSTs; the first non-connection response
stops the loop, returning the decoded body (or `None` for an empty body) on a
good status, while an error status raises `HTTPError` immediately — it is
never retried. -/
theorem c7_post_retry_policy (J : Jsonlib) (b : Browser) (env : Env)
    (url method : String) (params : JVal) (hdry : b.dry_run = false) :
    ((∀ j, 1 ≤ j → j ≤ 6 → (env.post j (jsonBody J method params)).isConn = true) →
      Browser.json_rpc_post J b env url method params = (.ok none, ⟨0, 0, 0, 6⟩))
    ∧ (∀ k s t, 1 ≤ k → k ≤ 6 →
        (∀ j, 1 ≤ j → j < k → (env.post j (jsonBody J method params)).isConn = true) →
        env.post k (jsonBody J method params) = .response s t → s < 400 →
        (t = "" → Browser.json_rpc_post J b env url method params = (.ok none, ⟨0, 0, 0, k⟩))
        ∧ (∀ v, t ≠ "" → J.loads t = .ok v →
            Browser.json_rpc_post J b env url method params = (.ok (some v), ⟨0, 0, 0, k⟩)))
    ∧ (∀ k s t, 1 ≤ k → k ≤ 6 →
        (∀ j, 1 ≤ j → j < k → (env.post j (jsonBody J method params)).isConn = true) →
        env.post k (jsonBody J method params) = .response s t → 399 < s → s < 600 →
        Browser.json_rpc_post J b env url method params
          = (.error (.httpError (httpErrorStr s (b.absoluteUrl url))), ⟨0, 0, 0, k⟩)) := by
  refine ⟨?_, ?_, ?_⟩
  · intro hconn
    unfold Browser.json_rpc_post
    rw [postLoop_exhaust env (b.absoluteUrl url) (jsonBody J method params) 6 1
      fun j h1 h2 => hconn j h1 (by omega)]
    simp [hdry]
  · intro k s t hk1 hk6 hconn hresp hs
    have hcond : (399 < s && s < 600) = false := by
      have hd : (decide (399 < s)) = false := decide_eq_false (by omega)
      simp [hd]
    have hpl := postLoop_reaches env (b.absoluteUrl url) (jsonBody J method params)
      6 1 k s t hk1 (by omega) (fun j ha hb => hconn j ha hb) hresp
    rw [hcond, if_neg Bool.false_ne_true] at hpl
    constructor
    · intro ht
      subst ht
      unfold Browser.json_rpc_post
      rw [hdry, if_neg Bool.false_ne_true, hpl, show k + 1 - 1 = k from by omega]
      simp
    · intro v ht hload
      unfold Browser.json_rpc_post
      rw [hdry, if_neg Bool.false_ne_true, hpl, show k + 1 - 1 = k from by omega]
      simp [ht, hload]
  · intro k s t hk1 hk6 hconn hresp hs1 hs2
    have hcond : (399 < s && s < 600) = true := by
      simp only [Bool.and_eq_true, decide_eq_true_eq]
      exact ⟨hs1, hs2⟩
    have hpl := postLoop_reaches env (b.absoluteUrl url) (jsonBody J method params)
      6 1 k s t hk1 (by omega) (fun j ha hb => hconn j ha hb) hresp
    rw [hcond, if_pos rfl] at hpl
    unfold Browser.json_rpc_post
    rw [hdry, if_neg Bool.false_ne_true, hpl, show k + 1 - 1 = k from by omega]

/-- Witness for C7: six connection errors yield `None` with six POSTs, and an
immediate empty-body success yields `None` with one POST. -/
theorem c7_post_retry_policy_witness :
    Browser.json_rpc_post Jtext b0 envConn "/jsonrpc.cgi" "Bug.update" (.num 7)
      = (.ok none, ⟨0, 0, 0, 6⟩)
    ∧ Browser.json_rpc_post Jtext b0 envPostOk "/jsonrpc.cgi" "Bug.update" (.num 7)
      = (.ok none, ⟨0, 0, 0, 1⟩) :=
  ⟨(c7_post_retry_policy Jtext b0 envConn "/jsonrpc.cgi" "Bug.update" (.num 7) rfl).1
      fun j h1 h2 => rfl,
    ((c7_post_retry_policy Jtext b0 envPostOk "/jsonrpc.cgi" "Bug.update" (.num 7) rfl).2.1
      1 200 "" (by decide) (by decide) (fun j h1 h2 => by omega) rfl (by decide)).1 rfl⟩

/-! ## Claim theorem on the TLS diagnostic branch -/

/-- Environment raising a TLS error, without OpenSSL introspection. -/
def envSSLno : Env :=
  ⟨fun _ => .err 2, fun _ => .sslError "certificate verify failed",
    fun _ _ => .response 200 "", false, fun _ => ⟨"Org", "AA", "BB"⟩⟩

/-- Environment raising a TLS error, with OpenSSL introspection available. -/
def envSSLyes : Env :=
  ⟨fun _ => .err 2, fun _ => .sslError "certificate verify failed",
    fun _ _ => .response 200 "", true, fun _ => ⟨"Org", "AA", "BB"⟩⟩

/-- C9: when the live fetch fails with a TLS error and importing the optional
OpenSSL module fails, `_get` re-raises the original `SSLError` unchanged (it is not a
`DownloadError`); only when introspection is available does it raise a
`DownloadError` whose message embeds the issuer organization and the SHA-1 and
SHA-256 fingerprints. -/
theorem c9_tls_fail_open (J : Jsonlib) (env : Env) (url e : String) (aj : Bool)
    (hssl : env.get url = .sslError e) :
    (env.opensslAvailable = false →
      Browser._get J env url aj = .error (.sslError e)
      ∧ Err.isDownloadError (.sslError e) = false)
    ∧ (env.opensslAvailable = true →
      Browser._get J env url aj
        = .error (.downloadError (certMsg (netlocOf url) (env.cert (netlocOf url))))
      ∧ ∃ s1 s2 s3 s4, certMsg (netlocOf url) (env.cert (netlocOf url))
          = s1 ++ (env.cert (netlocOf url)).issuer ++ s2 ++ (env.cert (netlocOf url)).sha1
            ++ s3 ++ (env.cert (netlocOf url)).sha256 ++ s4) := by
  constructor
  · intro hop
    refine ⟨?_, rfl⟩
    unfold Browser._get
    simp [hssl, hop]
  · intro hop
    refine ⟨?_, ?_⟩
    · unfold Browser._get
      simp [hssl, hop]
    · exact ⟨"Certificate for \"" ++ netlocOf url ++ "\" from \"", "\" (sha1: ",
        ", sha256 ", ") is not trusted by the system", rfl⟩

/-- Witness for C9: both capability states at a concrete URL. -/
theorem c9_tls_fail_open_witness :
    Browser._get Jtext envSSLno "https://h/x" false
      = .error (.sslError "certificate verify failed")
    ∧ Browser._get Jtext envSSLyes "https://h/x" false
      = .error (.downloadError (certMsg "h" ⟨"Org", "AA", "BB"⟩)) :=
  ⟨((c9_tls_fail_open Jtext envSSLno "https://h/x" "certificate verify failed" false rfl).1
      rfl).1,
    ((c9_tls_fail_open Jtext envSSLyes "https://h/x" "certificate verify failed" false rfl).2
      rfl).1⟩

/-! ## Claim theorems on the RPC GET builder -/

/-- C8: the GET URL built by `json_rpc_get` has its query keys in sorted
order — `method` before `params`, the Python string order — whatever the
insertion order into the `SortedDict`, with `params` serialised as a JSON
array holding the single params object; identical logical requests therefore
always produce the same URL (and hence the same cache fixture filename). -/
theorem c8_sorted_query (J : Jsonlib) (m : String) (p : JVal) (url : String)
    (hu : startsWith_model url "/" = false) :
    sortedPairs [("params", J.dumps (.arr [p])), ("method", m)]
      = [("method", m), ("params", J.dumps (.arr [p]))]
    ∧ sortedPairs [("method", m), ("params", J.dumps (.arr [p]))]
      = [("method", m), ("params", J.dumps (.arr [p]))]
    ∧ rpcGetUrl J url m p
      = url ++ "?method=" ++ quote_plus m ++ "&params="
          ++ quote_plus (J.dumps (.arr [p])) := by
  refine ⟨rfl, rfl, ?_⟩
  have key : ∀ A u v : String,
      (A ++ "?") ++ ((("method=" ++ u) ++ "&") ++ ("params=" ++ v))
        = (((A ++ "?method=") ++ u) ++ "&params=") ++ v := by
    intro A u v
    simp only [← String.append_assoc]
    rw [String.append_assoc A "?" "method=",
      show ("?" ++ "method=" : String) = "?method=" from by decide]
    rw [String.append_assoc (A ++ "?method=" ++ u) "&" "params=",
      show ("&" ++ "params=" : String) = "&params=" from by decide]
  have lhs_eq : rpcGetUrl J url m p
      = (url ++ "?") ++ ((("method=" ++ quote_plus m) ++ "&")
          ++ ("params=" ++ quote_plus (J.dumps (.arr [p])))) := by
    unfold rpcGetUrl buildGetUrl
    rw [hu, if_neg Bool.false_ne_true]
    rfl
  rw [lhs_eq]
  exact key url (quote_plus m) (quote_plus (J.dumps (.arr [p])))

/-- Witness for C8 at a concrete request. -/
theorem c8_sorted_query_witness :
    startsWith_model "http://bugzilla.example/jsonrpc.cgi" "/" = false
    ∧ rpcGetUrl Jtext "http://bugzilla.example/jsonrpc.cgi" "Bug.get" (.num 42)
        = "http://bugzilla.example/jsonrpc.cgi?method=Bug.get&params=D" :=
  ⟨rfl, by
    rw [(c8_sorted_query Jtext "Bug.get" (.num 42)
      "http://bugzilla.example/jsonrpc.cgi" rfl).2.2]
    decide⟩

/-- C4: `json_rpc_get` inspects the decoded response's `error` field: when it
is absent or `null`, the response is returned without raising; a non-null
error object with code 101 raises `BugNotFoundError` — a `BugzillaError`
subclass — carrying the URL, that code, and the message; any other code
raises a plain `BugzillaError` (not a `BugNotFoundError`) carrying the URL,
code and message. -/
theorem c4_rpc_error_taxonomy (J : Jsonlib) (b : Browser) (env : Env)
    (url method : String) (params : JVal) (raw : String) (resp : JVal)
    (hmem : b.cache.lookup
      (replaceAll (rpcGetUrl J url method params) "http://dummy" "") = some raw)
    (hload : J.loads raw = .ok resp) :
    ((jget resp "error" = none ∨ jget resp "error" = some .null) →
      (Browser.json_rpc_get J b env url method params true).1 = .ok resp)
    ∧ (∀ errv msg, jget resp "error" = some errv → errv.isNull = false →
        jget errv "code" = some (.num 101) → jget errv "message" = some msg →
        (Browser.json_rpc_get J b env url method params true).1
          = .error (.bugNotFound (rpcGetUrl J url method params) (.num 101) msg)
        ∧ Err.isBugzillaError
            (.bugNotFound (rpcGetUrl J url method params) (.num 101) msg) = true
        ∧ Err.isBugNotFound
            (.bugNotFound (rpcGetUrl J url method params) (.num 101) msg) = true)
    ∧ (∀ errv code msg, jget resp "error" = some errv → errv.isNull = false →
        jget errv "code" = some code → jeq101 code = false →
        jget errv "message" = some msg →
        (Browser.json_rpc_get J b env url method params true).1
          = .error (.bugzillaError (rpcGetUrl J url method params) code msg)
        ∧ Err.isBugzillaError
            (.bugzillaError (rpcGetUrl J url method params) code msg) = true
        ∧ Err.isBugNotFound
            (.bugzillaError (rpcGetUrl J url method params) code msg) = false) := by
  have hfetch : Browser.get_json J b env
      (replaceAll (rpcGetUrl J url method params) "http://dummy" "") true
      = (.ok (.json resp), b, ⟨0, 0, 0, 0⟩) := by
    unfold Browser.get_json
    rw [get_page_hit J b env _ raw true hmem]
    simp [decodeMaybe, hload]
  refine ⟨?_, ?_, ?_⟩
  · intro herr
    unfold Browser.json_rpc_get
    dsimp only
    rw [hfetch]
    rcases herr with h | h
    · simp [h]
    · simp [h, JVal.isNull]
  · intro errv msg herr hnull hcode hmsg
    refine ⟨?_, rfl, rfl⟩
    unfold Browser.json_rpc_get
    dsimp only
    rw [hfetch]
    simp only [herr, hnull, hcode, hmsg]
    rw [if_neg Bool.false_ne_true]
    simp [jeq101]
  · intro errv code msg herr hnull hcode hj hmsg
    refine ⟨?_, rfl, rfl⟩
    unfold Browser.json_rpc_get
    dsimp only
    rw [hfetch]
    simp only [herr, hnull, hcode, hj, hmsg]
    rw [if_neg Bool.false_ne_true, if_neg Bool.false_ne_true]

/-- Response decoder for the C4 witness: a bug-not-found error object. -/
def Jerr101 : Jsonlib :=
  ⟨fun _ => .ok (.obj [("error",
      .obj [("code", .num 101), ("message", .str "Bug #42 not found")])]),
    fun _ => "D"⟩

/-- Response decoder for the C4 witness: a generic API error object. -/
def Jerr500 : Jsonlib :=
  ⟨fun _ => .ok (.obj [("error",
      .obj [("code", .num 500), ("message", .str "internal")])]),
    fun _ => "D"⟩

/-- Response decoder for the C4 witness: a `null` error field. -/
def JerrNull : Jsonlib :=
  ⟨fun _ => .ok (.obj [("error", .null), ("result", .str "ok")]),
    fun _ => "D"⟩

/-- A browser whose in-memory cache already holds the RPC response. -/
def bCache : Browser :=
  ⟨false, false, ".", ".", false, "http://root.example",
    [("/jsonrpc.cgi?method=Bug.get&params=D", "RESP")]⟩

/-- Witness for C4: the three error-field shapes at a concrete request. -/
theorem c4_rpc_error_taxonomy_witness :
    (Browser.json_rpc_get Jerr101 bCache envLive "/jsonrpc.cgi" "Bug.get" (.num 42) true).1
      = .error (.bugNotFound "http://dummy/jsonrpc.cgi?method=Bug.get&params=D"
          (.num 101) (.str "Bug #42 not found"))
    ∧ (Browser.json_rpc_get Jerr500 bCache envLive "/jsonrpc.cgi" "Bug.get" (.num 42) true).1
      = .error (.bugzillaError "http://dummy/jsonrpc.cgi?method=Bug.get&params=D"
          (.num 500) (.str "internal"))
    ∧ (Browser.json_rpc_get JerrNull bCache envLive "/jsonrpc.cgi" "Bug.get" (.num 42) true).1
      = .ok (.obj [("error", .null), ("result", .str "ok")]) :=
  ⟨((c4_rpc_error_taxonomy Jerr101 bCache envLive "/jsonrpc.cgi" "Bug.get" (.num 42)
      "RESP" (.obj [("error",
        .obj [("code", .num 101), ("message", .str "Bug #42 not found")])]) rfl rfl).2.1
      (.obj [("code", .num 101), ("message", .str "Bug #42 not found")])
      (.str "Bug #42 not found") rfl rfl rfl rfl).1,
    ((c4_rpc_error_taxonomy Jerr500 bCache envLive "/jsonrpc.cgi" "Bug.get" (.num 42)
      "RESP" (.obj [("error",
        .obj [("code", .num 500), ("message", .str "internal")])]) rfl rfl).2.2
      (.obj [("code", .num 500), ("message", .str "internal")])
      (.num 500) (.str "internal") rfl rfl rfl rfl rfl).1,
    (c4_rpc_error_taxonomy JerrNull bCache envLive "/jsonrpc.cgi" "Bug.get" (.num 42)
      "RESP" (.obj [("error", .null), ("result", .str "ok")]) rfl rfl).1 (Or.inr rfl)⟩
